import Mathlib

/-!
Shallow embedding of `gowiki.go` (a minimal file-backed wiki served over HTTP).

The filesystem is modelled as explicit state: a map from filename to byte
content, a map from filename to permission mode, an environment oracle
`writeFail` saying which writes fail (and with which error text), and an
access log recording every filename handed to the filesystem primitives.
Reads fail exactly when the file is absent; handlers treat all read errors
alike, so this loses no handler-visible behaviour.  Template execution is
external to the source (the `.html` files are not part of it), so a response
records which template was executed against which page.
-/

/-- Byte content, Go `[]byte` modelled as a list of byte values. -/
abbrev Bytes := List Nat

/-- Go string-to-bytes conversion `[]byte(s)`, one value per character. -/
def strBytes (s : String) : Bytes := s.data.map Char.toNat

/-- Wiki page: `type Page struct { Title string; Body []byte }`. -/
structure Page where
  Title : String
  Body : Bytes
  deriving DecidableEq

/-- Filesystem state threaded through the handlers. -/
structure FS where
  files : String → Option Bytes
  perms : String → Option Nat
  writeFail : String → Option String
  log : List String

/-- Model of `ioutil.ReadFile`: the file's bytes, or `none` when it is
absent; the touched filename is recorded in the access log. -/
def FS.readFile (fs : FS) (name : String) : Option Bytes × FS :=
  (fs.files name, { fs with log := name :: fs.log })

/-- Model of `ioutil.WriteFile name content perm`: fails with the oracle's
error text when one is pending for `name`, otherwise creates or truncates
`name` with the given content and permission mode. -/
def FS.writeFile (fs : FS) (name : String) (content : Bytes) (perm : Nat) :
    Option String × FS :=
  match fs.writeFail name with
  | some e => (some e, { fs with log := name :: fs.log })
  | none =>
      (none,
       { files := fun n => if n = name then some content else fs.files n
         perms := fun n => if n = name then some perm else fs.perms n
         writeFail := fs.writeFail
         log := name :: fs.log })

/-- `func (p *Page) save() error`: writes `p.Body` to `p.Title + ".txt"`
with permission mode `0600`. -/
def Page.save (p : Page) (fs : FS) : Option String × FS :=
  fs.writeFile (p.Title ++ ".txt") p.Body 0o600

/-- `func loadPage(title string) (*Page, error)`: reads `title + ".txt"`
and on success returns the page with that title and the file's bytes. -/
def loadPage (title : String) (fs : FS) : Option Page × FS :=
  match fs.readFile (title ++ ".txt") with
  | (none, fs') => (none, fs')
  | (some body, fs') => (some ⟨title, body⟩, fs')

/-- HTTP response produced by a handler, one constructor per outcome the
source can produce. -/
inductive Response where
  | notFound : Response
  | redirect : String → Response
  | movedPermanently : String → Response
  | serverError : String → Response
  | render : String → Option Page → Response
  deriving DecidableEq

/-- HTTP request: URL path, method, and the form values visible through
`r.FormValue` (query string or body, a distinction the source never makes). -/
structure Request where
  path : String
  method : String
  form : String → String

/-- `renderTemplate w tmpl p`: executes template `tmpl + ".html"` against
`p`; the response records which template ran against which page. -/
def renderTemplate (tmpl : String) (p : Option Page) : Response :=
  Response.render tmpl p

/-- `func viewHandler`: load the page; on failure redirect (302) to the
edit URL, on success render the "view" template. -/
def viewHandler (r : Request) (title : String) (fs : FS) : Response × FS :=
  match loadPage title fs with
  | (none, fs') => (Response.redirect ("/edit/" ++ title), fs')
  | (some p, fs') => (renderTemplate "view" (some p), fs')

/-- `func editHandler`: load the page; on failure substitute
`&Page{Title: title}` (empty body), then render the "edit" template. -/
def editHandler (r : Request) (title : String) (fs : FS) : Response × FS :=
  match loadPage title fs with
  | (none, fs') => (renderTemplate "edit" (some ⟨title, []⟩), fs')
  | (some p, fs') => (renderTemplate "edit" (some p), fs')

/-- `func saveHandler`: build a page from the `body` form value, save it;
on failure answer 500 with the error text, on success redirect (302) to
the view URL. -/
def saveHandler (r : Request) (title : String) (fs : FS) : Response × FS :=
  match Page.save ⟨title, strBytes (r.form "body")⟩ fs with
  | (some e, fs') => (Response.serverError e, fs')
  | (none, fs') => (Response.redirect ("/view/" ++ title), fs')

/-- `func homeHandler`: load "homePage" ignoring the error, render the
"home" template against the (possibly absent) page. -/
def homeHandler (r : Request) (fs : FS) : Response × FS :=
  match loadPage "homePage" fs with
  | (p, fs') => (renderTemplate "home" p, fs')

/-- Character class `[a-zA-Z0-9]` of `validPath`. -/
def isAlnum (c : Char) : Bool :=
  ('a' ≤ c && c ≤ 'z') || ('A' ≤ c && c ≤ 'Z') || ('0' ≤ c && c ≤ '9')

/-- Consume a literal sequence at the head of the input, returning the
rest, or `none` when the input does not start with it. -/
def stripPrefixChars : List Char → List Char → Option (List Char)
  | [], cs => some cs
  | _ :: _, [] => none
  | p :: ps, c :: cs => if c = p then stripPrefixChars ps cs else none

/-- One alternative `op` of the regex: after the leading slash, the input
must be `op`, a slash, and a nonempty alphanumeric title reaching the end. -/
def matchTail (op : String) (cs : List Char) : Option (String × String) :=
  match stripPrefixChars (op ++ "/").data cs with
  | none => none
  | some t =>
      if t ≠ [] ∧ t.all isAlnum = true then some (op, String.mk t) else none

/-- `validPath.FindStringSubmatch` on the request path for the anchored
regex `^/(edit|save|view)/([a-zA-Z0-9]+)$`, returning the two capture
groups (operation, title) on a match. -/
def validPathFind (path : String) : Option (String × String) :=
  match path.data with
  | '/' :: rest =>
    match matchTail "edit" rest with
    | some m => some m
    | none =>
      match matchTail "save" rest with
      | some m => some m
      | none => matchTail "view" rest
  | _ => none

/-- `func makeHandler`: match the path against `validPath`; on failure
answer `http.NotFound`, on success call the wrapped handler with the
second capture group as the title. -/
def makeHandler (fn : Request → String → FS → Response × FS)
    (r : Request) (fs : FS) : Response × FS :=
  match validPathFind r.path with
  | none => (Response.notFound, fs)
  | some (_, title) => fn r title fs

/-- Whether `path` lies under the ServeMux subtree pattern `pat`. -/
def subtreeMatch (pat : String) (path : String) : Bool :=
  (stripPrefixChars pat.data path.data).isSome

/-- `net/http` ServeMux dispatch for the patterns registered in `main`
("/", "/view/", "/edit/", "/save/"), on canonical request paths: the
longest matching subtree pattern wins, a path equal to a registered
subtree pattern minus its final slash is redirected (301) to it, and the
pattern "/" catches everything else. -/
def serve (r : Request) (fs : FS) : Response × FS :=
  if subtreeMatch "/view/" r.path then makeHandler viewHandler r fs
  else if subtreeMatch "/edit/" r.path then makeHandler editHandler r fs
  else if subtreeMatch "/save/" r.path then makeHandler saveHandler r fs
  else if r.path = "/view" then (Response.movedPermanently "/view/", fs)
  else if r.path = "/edit" then (Response.movedPermanently "/edit/", fs)
  else if r.path = "/save" then (Response.movedPermanently "/save/", fs)
  else homeHandler r fs

/-- No two consecutive dots anywhere in the character list. -/
def noDotDot : List Char → Bool
  | [] => true
  | [_] => true
  | a :: b :: cs => !(a == '.' && b == '.') && noDotDot (b :: cs)

/-- The empty filesystem: no files, no permissions, no pending write
errors, empty access log. -/
def FS.empty : FS := ⟨fun _ => none, fun _ => none, fun _ => none, []⟩

/-- A request carrying no form values. -/
def noForm : String → String := fun _ => ""

theorem stripPrefixChars_eq_some {ps cs r : List Char} :
    stripPrefixChars ps cs = some r ↔ cs = ps ++ r := by
  induction ps generalizing cs with
  | nil => simp [stripPrefixChars]
  | cons p ps ih =>
    cases cs with
    | nil => simp [stripPrefixChars]
    | cons c cs =>
      by_cases h : c = p
      · subst h
        simp [stripPrefixChars, ih]
      · simp only [stripPrefixChars, if_neg h, List.cons_append, List.cons.injEq]
        simp [h]

theorem mk_data (s : String) : String.mk s.data = s := by
  cases s
  rfl

theorem data_append (s t : String) : (s ++ t).data = s.data ++ t.data := rfl

theorem matchTail_eq_some_iff (op : String) (cs : List Char) (m : String × String) :
    matchTail op cs = some m ↔
      m.1 = op ∧ m.2.data ≠ [] ∧ m.2.data.all isAlnum = true ∧
        cs = op.data ++ '/' :: m.2.data := by
  have hop : (op ++ "/").data = op.data ++ ['/'] := data_append op "/"
  constructor
  · intro hm
    rcases h : stripPrefixChars (op ++ "/").data cs with _ | t
    · simp only [matchTail, h] at hm
      exact Option.noConfusion hm
    · simp only [matchTail, h] at hm
      rw [stripPrefixChars_eq_some, hop] at h
      split at hm
      · rename_i hcond
        obtain rfl := Option.some.inj hm
        exact ⟨rfl, hcond.1, hcond.2, by rw [h]; simp⟩
      · exact Option.noConfusion hm
  · rintro ⟨h1, h2, h3, h4⟩
    obtain ⟨o, ttl⟩ := m
    simp only at h1 h2 h3 h4
    rw [h1]
    rw [h4]
    have hs : stripPrefixChars (op ++ "/").data (op.data ++ '/' :: ttl.data) =
        some ttl.data := by
      rw [stripPrefixChars_eq_some, hop]
      simp
    simp only [matchTail, hs]
    rw [if_pos ⟨h2, h3⟩, mk_data]

theorem validPathFind_eq_some_iff (p : String) (m : String × String) :
    validPathFind p = some m ↔
      ((m.1 = "edit" ∨ m.1 = "save" ∨ m.1 = "view") ∧ m.2.data ≠ [] ∧
        m.2.data.all isAlnum = true ∧
        p.data = '/' :: (m.1.data ++ '/' :: m.2.data)) := by
  constructor
  · intro hm
    unfold validPathFind at hm
    split at hm
    · rename_i rest hp
      rcases he : matchTail "edit" rest with _ | me
      · rcases hs : matchTail "save" rest with _ | ms
        · rcases hv : matchTail "view" rest with _ | mv
          · simp only [he, hs, hv] at hm
            exact Option.noConfusion hm
          · simp only [he, hs, hv] at hm
            obtain rfl := Option.some.inj hm
            obtain ⟨v1, v2, v3, v4⟩ := (matchTail_eq_some_iff _ _ _).mp hv
            exact ⟨Or.inr (Or.inr v1), v2, v3, by rw [hp, v4, v1]⟩
        · simp only [he, hs] at hm
          obtain rfl := Option.some.inj hm
          obtain ⟨s1, s2, s3, s4⟩ := (matchTail_eq_some_iff _ _ _).mp hs
          exact ⟨Or.inr (Or.inl s1), s2, s3, by rw [hp, s4, s1]⟩
      · simp only [he] at hm
        obtain rfl := Option.some.inj hm
        obtain ⟨e1, e2, e3, e4⟩ := (matchTail_eq_some_iff _ _ _).mp he
        exact ⟨Or.inl e1, e2, e3, by rw [hp, e4, e1]⟩
    · exact Option.noConfusion hm
  · rintro ⟨h1, h2, h3, hp⟩
    obtain ⟨o, t⟩ := m
    simp only at h1 h2 h3 hp
    rcases h1 with rfl | rfl | rfl
    · have he : matchTail "edit" ("edit".data ++ '/' :: t.data) = some ("edit", t) :=
        (matchTail_eq_some_iff _ _ _).mpr ⟨rfl, h2, h3, rfl⟩
      unfold validPathFind
      rw [hp]
      simp only [he]
    · have he : matchTail "edit" ("save".data ++ '/' :: t.data) = none := by
        rcases hc : matchTail "edit" ("save".data ++ '/' :: t.data) with _ | me
        · rfl
        · obtain ⟨-, -, -, e4⟩ := (matchTail_eq_some_iff _ _ _).mp hc
          exact absurd e4 (by simp)
      have hs : matchTail "save" ("save".data ++ '/' :: t.data) = some ("save", t) :=
        (matchTail_eq_some_iff _ _ _).mpr ⟨rfl, h2, h3, rfl⟩
      unfold validPathFind
      rw [hp]
      simp only [he, hs]
    · have he : matchTail "edit" ("view".data ++ '/' :: t.data) = none := by
        rcases hc : matchTail "edit" ("view".data ++ '/' :: t.data) with _ | me
        · rfl
        · obtain ⟨-, -, -, e4⟩ := (matchTail_eq_some_iff _ _ _).mp hc
          exact absurd e4 (by simp)
      have hs : matchTail "save" ("view".data ++ '/' :: t.data) = none := by
        rcases hc : matchTail "save" ("view".data ++ '/' :: t.data) with _ | ms
        · rfl
        · obtain ⟨-, -, -, s4⟩ := (matchTail_eq_some_iff _ _ _).mp hc
          exact absurd s4 (by simp)
      have hv : matchTail "view" ("view".data ++ '/' :: t.data) = some ("view", t) :=
        (matchTail_eq_some_iff _ _ _).mpr ⟨rfl, h2, h3, rfl⟩
      unfold validPathFind
      rw [hp]
      simp only [he, hs, hv]

theorem loadPage_eq (title : String) (fs : FS) :
    loadPage title fs =
      ((fs.files (title ++ ".txt")).map fun b => ⟨title, b⟩,
       { fs with log := (title ++ ".txt") :: fs.log }) := by
  cases h : fs.files (title ++ ".txt") <;> simp [loadPage, FS.readFile, h]

theorem writeFile_ok (fs : FS) (name : String) (content : Bytes) (perm : Nat)
    (h : fs.writeFail name = none) :
    fs.writeFile name content perm =
      (none,
       { files := fun n => if n = name then some content else fs.files n
         perms := fun n => if n = name then some perm else fs.perms n
         writeFail := fs.writeFail
         log := name :: fs.log }) := by
  simp [FS.writeFile, h]

theorem writeFile_err (fs : FS) (name : String) (content : Bytes) (perm : Nat)
    (e : String) (h : fs.writeFail name = some e) :
    fs.writeFile name content perm =
      (some e, { fs with log := name :: fs.log }) := by
  simp [FS.writeFile, h]

/-- C1: the dispatcher built by makeHandler matches the request path
against ^/(edit|save|view)/([a-zA-Z0-9]+)$; on a match it calls the
wrapped handler with the second capture group as the title, and on a
non-match it answers 404 and performs no dispatch (the state is
untouched). The last conjunct characterises exactly which paths match. -/
theorem C1_makeHandler_dispatch (fn : Request → String → FS → Response × FS)
    (r : Request) (fs : FS) :
    (∀ op title, validPathFind r.path = some (op, title) →
        makeHandler fn r fs = fn r title fs) ∧
    (validPathFind r.path = none →
        makeHandler fn r fs = (Response.notFound, fs)) ∧
    (∀ op title, validPathFind r.path = some (op, title) ↔
        ((op = "edit" ∨ op = "save" ∨ op = "view") ∧ title.data ≠ [] ∧
          title.data.all isAlnum = true ∧
          r.path.data = '/' :: (op.data ++ '/' :: title.data))) := by
  refine ⟨?_, ?_, ?_⟩
  · intro op title h
    simp [makeHandler, h]
  · intro h
    simp [makeHandler, h]
  · intro op title
    exact validPathFind_eq_some_iff r.path (op, title)

/-- Witness for C1: /view/abc123 dispatches with title abc123, while
/view/has space yields 404. -/
theorem C1_witness :
    makeHandler viewHandler ⟨"/view/abc123", "GET", noForm⟩ FS.empty =
      viewHandler ⟨"/view/abc123", "GET", noForm⟩ "abc123" FS.empty ∧
    makeHandler viewHandler ⟨"/view/has space", "GET", noForm⟩ FS.empty =
      (Response.notFound, FS.empty) :=
  ⟨(C1_makeHandler_dispatch viewHandler ⟨"/view/abc123", "GET", noForm⟩
      FS.empty).1 "view" "abc123" (by decide),
   (C1_makeHandler_dispatch viewHandler ⟨"/view/has space", "GET", noForm⟩
      FS.empty).2.1 (by decide)⟩

/-- C2: for any alphanumeric title and any byte content, a successful
save followed by loadPage returns a page with the same title and body. -/
theorem C2_save_load_roundtrip (title : String) (body : Bytes) (fs : FS)
    (ht : title.data ≠ [] ∧ title.data.all isAlnum = true)
    (hw : fs.writeFail (title ++ ".txt") = none) :
    (Page.save ⟨title, body⟩ fs).1 = none ∧
    (loadPage title (Page.save ⟨title, body⟩ fs).2).1 = some ⟨title, body⟩ := by
  rw [Page.save, writeFile_ok fs _ body _ hw]
  refine ⟨rfl, ?_⟩
  rw [loadPage_eq]
  simp

/-- Witness for C2 with title "abc" and body [104, 105]. -/
theorem C2_witness :
    (Page.save ⟨"abc", [104, 105]⟩ FS.empty).1 = none ∧
    (loadPage "abc" (Page.save ⟨"abc", [104, 105]⟩ FS.empty).2).1 =
      some ⟨"abc", [104, 105]⟩ :=
  C2_save_load_roundtrip "abc" [104, 105] FS.empty (by decide) rfl

/-- C3: when loadPage fails, viewHandler's entire response is a 302
redirect to /edit/<title>; when it succeeds, the response renders the
"view" template against the loaded page. -/
theorem C3_viewHandler_spec (r : Request) (title : String) (fs : FS) :
    ((loadPage title fs).1 = none →
      viewHandler r title fs =
        (Response.redirect ("/edit/" ++ title), (loadPage title fs).2)) ∧
    (∀ p, (loadPage title fs).1 = some p →
      viewHandler r title fs =
        (Response.render "view" (some p), (loadPage title fs).2)) := by
  rcases hl : loadPage title fs with ⟨_ | p, fs'⟩
  · refine ⟨fun _ => ?_, fun p hp => ?_⟩
    · simp [viewHandler, hl]
    · exact Option.noConfusion hp
  · refine ⟨fun h => ?_, fun q hq => ?_⟩
    · exact Option.noConfusion h
    · obtain rfl := Option.some.inj hq
      simp [viewHandler, renderTemplate, hl]

/-- Witness for C3: viewing the absent page "abc" on the empty filesystem
redirects to /edit/abc. -/
theorem C3_witness :
    viewHandler ⟨"/view/abc", "GET", noForm⟩ "abc" FS.empty =
      (Response.redirect ("/edit/" ++ "abc"), (loadPage "abc" FS.empty).2) :=
  (C3_viewHandler_spec ⟨"/view/abc", "GET", noForm⟩ "abc" FS.empty).1 rfl

/-- C4: saveHandler persists a page built from the dispatched title and
the `body` form value; on success it answers a 302 redirect to
/view/<title> and the file holds the submitted bytes, on failure it
answers 500 carrying the error text (and nothing else changes but the
access log). -/
theorem C4_saveHandler_spec (r : Request) (title : String) (fs : FS) :
    (fs.writeFail (title ++ ".txt") = none →
      saveHandler r title fs =
        (Response.redirect ("/view/" ++ title),
         (Page.save ⟨title, strBytes (r.form "body")⟩ fs).2) ∧
      ((Page.save ⟨title, strBytes (r.form "body")⟩ fs).2).files
          (title ++ ".txt") = some (strBytes (r.form "body"))) ∧
    (∀ e, fs.writeFail (title ++ ".txt") = some e →
      saveHandler r title fs =
        (Response.serverError e,
         { fs with log := (title ++ ".txt") :: fs.log })) := by
  constructor
  · intro hw
    have hsave : Page.save ⟨title, strBytes (r.form "body")⟩ fs =
        (none,
         { files := fun n => if n = title ++ ".txt"
             then some (strBytes (r.form "body")) else fs.files n
           perms := fun n => if n = title ++ ".txt"
             then some 0o600 else fs.perms n
           writeFail := fs.writeFail
           log := (title ++ ".txt") :: fs.log }) :=
      writeFile_ok fs (title ++ ".txt") _ _ hw
    refine ⟨?_, ?_⟩
    · simp [saveHandler, hsave]
    · rw [hsave]
      simp
  · intro e hw
    have hsave : Page.save ⟨title, strBytes (r.form "body")⟩ fs =
        (some e, { fs with log := (title ++ ".txt") :: fs.log }) :=
      writeFile_err fs (title ++ ".txt") _ _ e hw
    simp [saveHandler, hsave]

/-- A filesystem whose every write fails with "disk full". -/
def failFS : FS := ⟨fun _ => none, fun _ => none, fun _ => some "disk full", []⟩

/-- Witness for C4: saving "abc" succeeds on the empty filesystem and
fails with a 500 carrying "disk full" on the failing one. -/
theorem C4_witness :
    ((saveHandler ⟨"/save/abc", "POST", noForm⟩ "abc" FS.empty).1 =
        Response.redirect ("/view/" ++ "abc") ∧
      saveHandler ⟨"/save/abc", "POST", noForm⟩ "abc" failFS =
        (Response.serverError "disk full",
         { failFS with log := ("abc" ++ ".txt") :: failFS.log })) :=
  ⟨by rw [((C4_saveHandler_spec ⟨"/save/abc", "POST", noForm⟩ "abc"
      FS.empty).1 rfl).1],
   (C4_saveHandler_spec ⟨"/save/abc", "POST", noForm⟩ "abc" failFS).2
      "disk full" rfl⟩

/-- C5: when loadPage fails, editHandler renders the "edit" template
against a page carrying the given title and an empty body; the load
error never reaches the client. -/
theorem C5_editHandler_spec (r : Request) (title : String) (fs : FS) :
    (loadPage title fs).1 = none →
      editHandler r title fs =
        (Response.render "edit" (some ⟨title, []⟩), (loadPage title fs).2) := by
  intro h
  rcases hl : loadPage title fs with ⟨p?, fs'⟩
  rw [hl] at h
  simp only at h
  subst h
  simp [editHandler, renderTemplate, hl]

/-- Witness for C5: editing the absent page "abc" renders the edit form
with title "abc" and empty body. -/
theorem C5_witness :
    editHandler ⟨"/edit/abc", "GET", noForm⟩ "abc" FS.empty =
      (Response.render "edit" (some ⟨"abc", []⟩), (loadPage "abc" FS.empty).2) :=
  C5_editHandler_spec ⟨"/edit/abc", "GET", noForm⟩ "abc" FS.empty rfl

/-- C6 counterexample: /foo is not "/" and matches none of the listed
routes, yet the server does not answer 404 — the "/" pattern of the mux
is a catch-all, so homeHandler serves the request. -/
theorem C6_counterexample :
    (serve ⟨"/foo", "GET", noForm⟩ FS.empty).1 = Response.render "home" none ∧
    (serve ⟨"/foo", "GET", noForm⟩ FS.empty).1 ≠ Response.notFound := by
  refine ⟨rfl, ?_⟩
  decide

/-- C6 amended: only requests under the registered subtrees /view/,
/edit/, /save/ whose path fails the regex are answered 404; every path
outside those subtrees (and not one of the three trailing-slash redirect
paths) falls through to the home handler instead. -/
theorem C6_amended_routing (r : Request) (fs : FS) :
    ((subtreeMatch "/view/" r.path = true ∨ subtreeMatch "/edit/" r.path = true ∨
        subtreeMatch "/save/" r.path = true) →
      validPathFind r.path = none →
      serve r fs = (Response.notFound, fs)) ∧
    (subtreeMatch "/view/" r.path = false →
      subtreeMatch "/edit/" r.path = false →
      subtreeMatch "/save/" r.path = false →
      r.path ≠ "/view" → r.path ≠ "/edit" → r.path ≠ "/save" →
      serve r fs = homeHandler r fs) := by
  constructor
  · intro hpre hm
    rcases hv : subtreeMatch "/view/" r.path with _ | _
    · rcases he : subtreeMatch "/edit/" r.path with _ | _
      · have hs : subtreeMatch "/save/" r.path = true := by
          rcases hpre with h | h | h
          · rw [hv] at h
            exact Bool.noConfusion h
          · rw [he] at h
            exact Bool.noConfusion h
          · exact h
        simp [serve, hv, he, hs, makeHandler, hm]
      · simp [serve, hv, he, makeHandler, hm]
    · simp [serve, hv, makeHandler, hm]
  · intro h1 h2 h3 h4 h5 h6
    simp [serve, h1, h2, h3, h4, h5, h6]

/-- Witness for C6 amended: /view/ (empty title) lies under the /view/
subtree, fails the regex, and is answered 404. -/
theorem C6_witness :
    serve ⟨"/view/", "GET", noForm⟩ FS.empty = (Response.notFound, FS.empty) :=
  (C6_amended_routing ⟨"/view/", "GET", noForm⟩ FS.empty).1 (Or.inl rfl) (by decide)

/-- C7: saving the same title and body twice leaves the title-to-bytes
map identical to saving once. -/
theorem C7_save_idempotent (title : String) (body : Bytes) (fs : FS)
    (hw : fs.writeFail (title ++ ".txt") = none) :
    ((Page.save ⟨title, body⟩ ((Page.save ⟨title, body⟩ fs).2)).2).files =
      ((Page.save ⟨title, body⟩ fs).2).files := by
  simp only [Page.save, FS.writeFile, hw]
  funext n
  by_cases h : n = title ++ ".txt" <;> simp [h]

/-- Witness for C7 with title "abc" and body [104]. -/
theorem C7_witness :
    ((Page.save ⟨"abc", [104]⟩ ((Page.save ⟨"abc", [104]⟩ FS.empty).2)).2).files =
      ((Page.save ⟨"abc", [104]⟩ FS.empty).2).files :=
  C7_save_idempotent "abc" [104] FS.empty rfl

/-- C8: a successful save writes the page's body to the file named
Title + ".txt" with permission mode 0600 (owner read-write only). -/
theorem C8_save_writes_title_txt_0600 (p : Page) (fs : FS)
    (hw : fs.writeFail (p.Title ++ ".txt") = none) :
    (Page.save p fs).1 = none ∧
    ((Page.save p fs).2).files (p.Title ++ ".txt") = some p.Body ∧
    ((Page.save p fs).2).perms (p.Title ++ ".txt") = some 0o600 := by
  rw [Page.save, writeFile_ok fs _ p.Body _ hw]
  refine ⟨rfl, by simp, by simp⟩

/-- Witness for C8 with the page ("abc", [104]). -/
theorem C8_witness :
    (Page.save ⟨"abc", [104]⟩ FS.empty).1 = none ∧
    ((Page.save ⟨"abc", [104]⟩ FS.empty).2).files ("abc" ++ ".txt") =
      some [104] ∧
    ((Page.save ⟨"abc", [104]⟩ FS.empty).2).perms ("abc" ++ ".txt") =
      some 0o600 :=
  C8_save_writes_title_txt_0600 ⟨"abc", [104]⟩ FS.empty rfl

/-- C9: the save route checks no HTTP method — dispatch and handling are
identical for every method, and a plain GET to /save/<title> persists
the `body` form value and answers the view redirect. -/
theorem C9_save_route_no_method_check (m m' : String) (t : String)
    (form : String → String) (fs : FS)
    (ht : t.data ≠ [] ∧ t.data.all isAlnum = true)
    (hw : fs.writeFail (t ++ ".txt") = none) :
    serve ⟨"/save/" ++ t, m, form⟩ fs = serve ⟨"/save/" ++ t, m', form⟩ fs ∧
    (serve ⟨"/save/" ++ t, "GET", form⟩ fs).1 =
      Response.redirect ("/view/" ++ t) ∧
    ((serve ⟨"/save/" ++ t, "GET", form⟩ fs).2).files (t ++ ".txt") =
      some (strBytes (form "body")) := by
  have hroute : ∀ mm : String, serve ⟨"/save/" ++ t, mm, form⟩ fs =
      saveHandler ⟨"/save/" ++ t, mm, form⟩ t fs := by
    intro mm
    have h1 : subtreeMatch "/view/" ("/save/" ++ t) = false := rfl
    have h2 : subtreeMatch "/edit/" ("/save/" ++ t) = false := rfl
    have h3 : subtreeMatch "/save/" ("/save/" ++ t) = true := rfl
    have hm : validPathFind ("/save/" ++ t) = some ("save", t) :=
      (validPathFind_eq_some_iff _ _).mpr ⟨Or.inr (Or.inl rfl), ht.1, ht.2, rfl⟩
    simp [serve, h1, h2, h3, makeHandler, hm]
  have hsave : Page.save ⟨t, strBytes (form "body")⟩ fs =
      (none,
       { files := fun n => if n = t ++ ".txt"
           then some (strBytes (form "body")) else fs.files n
         perms := fun n => if n = t ++ ".txt" then some 0o600 else fs.perms n
         writeFail := fs.writeFail
         log := (t ++ ".txt") :: fs.log }) :=
    writeFile_ok fs (t ++ ".txt") _ _ hw
  refine ⟨?_, ?_, ?_⟩
  · rw [hroute m, hroute m']
    exact rfl
  · rw [hroute "GET"]
    simp [saveHandler, hsave]
  · rw [hroute "GET"]
    simp [saveHandler, hsave]

/-- Witness for C9 at title "abc" with an empty form, comparing GET and
POST on the empty filesystem. -/
theorem C9_witness :
    serve ⟨"/save/" ++ "abc", "GET", noForm⟩ FS.empty =
      serve ⟨"/save/" ++ "abc", "POST", noForm⟩ FS.empty ∧
    (serve ⟨"/save/" ++ "abc", "GET", noForm⟩ FS.empty).1 =
      Response.redirect ("/view/" ++ "abc") ∧
    ((serve ⟨"/save/" ++ "abc", "GET", noForm⟩ FS.empty).2).files
        ("abc" ++ ".txt") = some (strBytes (noForm "body")) :=
  C9_save_route_no_method_check "GET" "POST" "abc" noForm FS.empty
    (by decide) rfl

theorem handler_log (fn : Request → String → FS → Response × FS)
    (hfn : fn = viewHandler ∨ fn = editHandler ∨ fn = saveHandler)
    (r : Request) (t : String) (fs : FS) :
    ((fn r t fs).2).log = (t ++ ".txt") :: fs.log := by
  rcases hfn with rfl | rfl | rfl
  · cases h : fs.files (t ++ ".txt") <;>
      simp [viewHandler, loadPage, FS.readFile, h]
  · cases h : fs.files (t ++ ".txt") <;>
      simp [editHandler, loadPage, FS.readFile, h]
  · cases h : fs.writeFail (t ++ ".txt") <;>
      simp [saveHandler, Page.save, FS.writeFile, h]

theorem isAlnum_beq_false (c d : Char) (h : isAlnum c = true)
    (hd : isAlnum d = false) : (c == d) = false := by
  rcases Bool.eq_false_or_eq_true (c == d) with htr | hf
  · obtain rfl := eq_of_beq htr
    rw [h] at hd
    exact Bool.noConfusion hd
  · exact hf

theorem noDotDot_append_txt (l : List Char) (h : l.all isAlnum = true) :
    noDotDot (l ++ ('.' :: 't' :: 'x' :: 't' :: [])) = true := by
  induction l with
  | nil => decide
  | cons a l ih =>
    rw [List.all_cons, Bool.and_eq_true] at h
    have hna : (a == '.') = false := isAlnum_beq_false a '.' h.1 (by decide)
    cases l with
    | nil => simp [noDotDot, hna]
    | cons b l' =>
      simp only [List.cons_append, noDotDot, hna, Bool.false_and,
        Bool.not_false, Bool.true_and]
      exact ih h.2

theorem txt_no_slash (t : String) (h : t.data.all isAlnum = true) :
    (t ++ ".txt").data.all (fun c => !(c == '/')) = true := by
  rw [data_append, List.all_append, Bool.and_eq_true]
  refine ⟨?_, by decide⟩
  rw [List.all_eq_true] at h ⊢
  intro c hc
  rw [isAlnum_beq_false c '/' (h c hc) (by decide)]
  rfl

/-- C10: every filename a makeHandler-dispatched handler (view, edit or
save) hands to the filesystem is <title>.txt for the nonempty
alphanumeric matched title — in particular it contains no slash and no
two consecutive dots, so no dispatched request touches a file outside
the working directory. -/
theorem C10_dispatched_access_safe
    (fn : Request → String → FS → Response × FS)
    (hfn : fn = viewHandler ∨ fn = editHandler ∨ fn = saveHandler)
    (r : Request) (fs : FS) :
    ∃ pre, ((makeHandler fn r fs).2).log = pre ++ fs.log ∧
      ∀ name ∈ pre, ∃ t : String, name = t ++ ".txt" ∧ t.data ≠ [] ∧
        t.data.all isAlnum = true ∧
        name.data.all (fun c => !(c == '/')) = true ∧
        noDotDot name.data = true := by
  rcases hv : validPathFind r.path with _ | ⟨op, t⟩
  · refine ⟨[], by simp [makeHandler, hv], by simp⟩
  · obtain ⟨-, h2, h3, -⟩ := (validPathFind_eq_some_iff _ _).mp hv
    refine ⟨[t ++ ".txt"], ?_, ?_⟩
    · simp [makeHandler, hv, handler_log fn hfn r t fs]
    · intro name hname
      rw [List.mem_singleton] at hname
      subst hname
      exact ⟨t, rfl, h2, h3, txt_no_slash t h3,
        by rw [data_append]; exact noDotDot_append_txt t.data h3⟩

/-- Witness for C10: the view handler dispatched on /view/abc touches
only abc.txt. -/
theorem C10_witness :
    ∃ pre, ((makeHandler viewHandler ⟨"/view/abc", "GET", noForm⟩
        FS.empty).2).log = pre ++ FS.empty.log ∧
      ∀ name ∈ pre, ∃ t : String, name = t ++ ".txt" ∧ t.data ≠ [] ∧
        t.data.all isAlnum = true ∧
        name.data.all (fun c => !(c == '/')) = true ∧
        noDotDot name.data = true :=
  C10_dispatched_access_safe viewHandler (Or.inl rfl)
    ⟨"/view/abc", "GET", noForm⟩ FS.empty
